import Mathlib

/-!
Verification development for the `fszn` project-file subsystem
(`fszn/services/file_service.py`, `fszn/services/preview_service.py`,
`fszn/operation_log.py`).

The Python source is shallowly embedded: pure helpers become Lean
functions on `List Char` / `String`; the SQLAlchemy session becomes an
explicit `DB` record threaded through each service operation; the file
system becomes an explicit list of paths (with modification times where
the source reads them); exceptions become `Except ServiceError`.
-/

namespace Fszn

/-! ## Character / string utilities (file_service.sanitize_part and friends) -/

/-- The characters stripped by `sanitize_part` (`invalid = '\\/:*?"<>|'`). -/
def invalidChars : List Char := ['\\', '/', ':', '*', '?', '"', '<', '>', '|']

/-- `sanitize_part`: remove every character of `invalidChars`, then turn
spaces into underscores.  The Python code performs one `str.replace(ch, "")`
per invalid character followed by `replace(" ", "_")`; since none of the
invalid characters is a space or an underscore this equals a filter
followed by a map. -/
def sanitizePart (s : List Char) : List Char :=
  (s.filter (fun c => !(invalidChars.contains c))).map
    (fun c => if c = ' ' then '_' else c)

/-- `sanitize_part` on `String`. -/
def sanitizePartS (s : String) : String :=
  String.mk (sanitizePart s.data)

/-- ASCII case folding; models Python `str.lower()` on the ASCII strings
this code base feeds it (file extensions, role names). -/
def toLowerChars (s : List Char) : List Char := s.map Char.toLower

/-- Python `s.rsplit(".", 1)` when a dot is present: split at the LAST
dot, returning `(before, after)`; `none` when the string has no dot. -/
def rsplitDot : List Char → Option (List Char × List Char)
  | [] => none
  | c :: cs =>
    match rsplitDot cs with
    | some (pre, post) => some (c :: pre, post)
    | none => if c = '.' then some ([], cs) else none

/-- The split performed at the top of `generate_file_name`:
`name_without_ext` and (lower-cased, dot-prefixed) extension. -/
def splitExt (original : List Char) : List Char × List Char :=
  match rsplitDot original with
  | some (pre, extRaw) => (pre, '.' :: toLowerChars extRaw)
  | none => (original, [])

/-- Python `a or b` on strings (empty string is falsy). -/
def orElse (s dflt : List Char) : List Char :=
  if s = [] then dflt else s

/-- Python `a or b` on `String`. -/
def strOr (a b : String) : String := if a = "" then b else a

/-- Python whitespace test used by `str.strip()` (ASCII subset). -/
def isPyWhitespace (c : Char) : Bool :=
  c = ' ' || c = '\t' || c = '\n' || c = '\r' || c = '\x0b' || c = '\x0c'

/-- Python `str.strip()` (ASCII whitespace). -/
def stripChars (s : List Char) : List Char :=
  ((s.dropWhile isPyWhitespace).reverse.dropWhile isPyWhitespace).reverse

/-- `(role or "").strip().lower()` as used by `get_role_allowed_types`. -/
def normalizeRole (role : String) : String :=
  String.mk (toLowerChars (stripChars role.data))

/-- Leading dots of a basename (they never start an extension in
`os.path.splitext`). -/
def countLeadingDots : List Char → Nat
  | [] => 0
  | c :: cs => if c = '.' then countLeadingDots cs + 1 else 0

/-- `os.path.splitext(s)[0]`: the extension starts at the last dot that
is preceded by at least one non-dot character. -/
def splitextBase (s : List Char) : List Char :=
  let k := countLeadingDots s
  let head := s.take k
  let tail := s.drop k
  match rsplitDot tail with
  | some (pre, _) => head ++ pre
  | none => s

/-- Split a character list at every `'/'`. -/
def splitOnSlash : List Char → List (List Char)
  | [] => [[]]
  | c :: cs =>
    match splitOnSlash cs with
    | [] => [[]]
    | h :: t => if c = '/' then [] :: h :: t else (c :: h) :: t

/-- `os.path.basename` on a single name string (POSIX: the part after
the last slash). -/
def basenameStr (s : String) : List Char :=
  (splitOnSlash s.data).getLastD []

/-! ## Constants from `file_service.py` / `preview_service.py` -/

def ALLOWED_EXTENSIONS : List String :=
  ["pdf", "png", "jpg", "jpeg", "doc", "docx", "xls", "xlsx", "ppt", "pptx", "mrc2"]

def DRAWING_EXTENSIONS : List String :=
  ["jpg", "jpeg", "png", "pdf", "dwg", "dxf", "sldprt", "sldasm",
   "doc", "docx", "xls", "xlsx", "ppt", "pptx", "mrc2"]

def OFFICE_PREVIEW_EXTS : List String :=
  ["doc", "docx", "xls", "xlsx", "ppt", "pptx"]

/-- `ROLE_ALLOWED_TYPES`, keyed by normalized role; unknown keys fall
back to the `"default"` row. -/
def roleAllowedTypes (role : String) : List String :=
  if role = "admin" then ["contract", "tech", "drawing", "invoice", "ticket"]
  else if role = "boss" then ["contract", "tech", "drawing", "invoice", "ticket"]
  else if role = "software_engineer" then ["contract", "drawing", "tech", "invoice"]
  else if role = "mechanical_engineer" then ["contract", "drawing", "tech", "invoice"]
  else if role = "electrical_engineer" then ["contract", "drawing", "tech", "invoice"]
  else if role = "sales" then ["contract", "tech", "ticket", "invoice"]
  else if role = "procurement" then ["contract", "drawing", "tech", "invoice"]
  else ["contract", "drawing", "tech", "invoice"]

/-- `FILE_TYPE_NAME_MAP`. -/
def fileTypeNameMap (t : String) : Option String :=
  if t = "contract" then some "合同"
  else if t = "tech" then some "技术文档"
  else if t = "drawing" then some "图纸"
  else if t = "invoice" then some "其它"
  else none

def OBJECT_TYPE_FILE : String := "file"
def ACTION_UPLOAD : String := "upload"
def ACTION_DELETE : String := "delete"
def ACTION_RESTORE : String := "restore"
def ACTION_UPDATE : String := "update"
def ACTION_DOWNLOAD : String := "download"

/-! ## Data model (`models.py`) -/

/-- `User`: only the fields the file subsystem reads. -/
structure User where
  id : Nat
  role : String
deriving DecidableEq

/-- `Contract`: the fields read by the file subsystem.  `companyName`
is `contract.company.name` when the company relation is present. -/
structure Contract where
  id : Nat
  companyName : Option String
  projectCode : String
  contractNumber : String
  name : String
deriving DecidableEq

/-- `ProjectFile` row.  `ownerRole = ""` models a NULL/empty
`owner_role`; the source only ever tests its truthiness. -/
structure ProjectFile where
  id : Nat
  contractId : Nat
  uploaderId : Nat
  fileType : String
  version : String
  author : String
  originalFilename : String
  storedFilename : String
  contentType : String
  fileSize : Nat
  isPublic : Bool
  ownerRole : String
  isDeleted : Bool
  createdAt : Nat
deriving DecidableEq

/-- A JSON scalar appearing in an operation-log diff payload. -/
inductive JVal
  | b (v : Bool)
  | s (v : String)
deriving DecidableEq

/-- `OperationLog` row as built by `log_operation` (the remote IP is
always `None` from the service layer and is omitted). -/
structure OperationLog where
  operatorId : Option Nat
  contractId : Option Nat
  objectType : String
  objectId : Nat
  action : String
  oldData : Option (List (String × JVal))
  newData : Option (List (String × JVal))
deriving DecidableEq

/-- The relational store as seen by the file subsystem. -/
structure DB where
  files : List ProjectFile
  logs : List OperationLog
deriving DecidableEq

/-- A path, as the ordered list of components `os.path.join` was given. -/
abbrev Path := List String

/-- An uploaded `FileStorage`: the fields the service reads. -/
structure UploadedFile where
  filename : String
  mimetype : String
  sizeBytes : Nat
deriving DecidableEq

/-- The exception kinds raised by the service layer. -/
inductive ServiceError
  | fileNotFound (msg : String)
  | permissionError (msg : String)
  | valueError (msg : String)
deriving DecidableEq

/-! ## `allowed_file`, `generate_file_name` (file_service.py) -/

/-- `allowed_file(filename, file_type)`. -/
def allowedFile (filename : List Char) (fileType : Option String) : Bool :=
  match rsplitDot filename with
  | none => false
  | some (_, extRaw) =>
    let ext := String.mk (toLowerChars extRaw)
    if fileType = some "drawing" then DRAWING_EXTENSIONS.contains ext
    else ALLOWED_EXTENSIONS.contains ext

/-- The `parts` list assembled inside `generate_file_name`, in source
order.  `todayStr` stands for `datetime.utcnow().strftime("%Y%m%d")`. -/
def generateParts (c : Contract) (fileType version author origName todayStr : String) :
    List (List Char) :=
  let nameWithoutExt := (splitExt origName.data).1
  let companyName := sanitizePart (c.companyName.getD "").data
  let projectCode := sanitizePart c.projectCode.data
  let contractNumber := sanitizePart c.contractNumber.data
  let contractName := sanitizePart c.name.data
  let fileTypeLabel := (fileTypeNameMap fileType).getD fileType
  let fileTypePart := sanitizePart fileTypeLabel.data
  let originalNamePart := sanitizePart (orElse nameWithoutExt "NoFilename".data)
  let versionPart := sanitizePart (orElse version.data "V1".data)
  let authorPart := sanitizePart (orElse author.data "unknown".data)
  [orElse companyName "NoCompany".data,
   orElse projectCode "NoProject".data,
   orElse contractNumber "NoContractNo".data,
   orElse contractName "NoName".data,
   todayStr.data,
   fileTypePart,
   originalNamePart,
   versionPart,
   authorPart]

/-- `generate_file_name`: join the parts with underscores, truncate the
base to 180 characters, append the (lower-cased) extension. -/
def generateFileName (c : Contract) (fileType version author origName todayStr : String) :
    List Char :=
  let base := List.intercalate ['_'] (generateParts c fileType version author origName todayStr)
  let base := if base.length > 180 then base.take 180 else base
  base ++ (splitExt origName.data).2

/-! ## Path resolution (`FileService.get_project_dir_name` / `get_file_path`) -/

/-- `get_project_dir_name`: the sanitized project code, falling back to
the numeric contract id when it sanitizes to the empty string. -/
def getProjectDirName (c : Contract) : String :=
  let projectCode := sanitizePartS c.projectCode
  if projectCode ≠ "" then projectCode else toString c.id

/-- `get_file_path`: try `<root>/<project_dir>/<stored>`, then
`<root>/<contract_id>/<stored>`, and fall back to the flat
`<root>/<stored>` WITHOUT an existence check.  `fs` is the set of paths
that exist on disk. -/
def getFilePath (fs : List Path) (root : String) (c : Contract) (pf : ProjectFile) : Path :=
  let newPath : Path := [root, getProjectDirName c, pf.storedFilename]
  if newPath ∈ fs then newPath
  else
    let oldContractDirPath : Path := [root, toString c.id, pf.storedFilename]
    if oldContractDirPath ∈ fs then oldContractDirPath
    else [root, pf.storedFilename]

/-! ## Audit log (`operation_log.log_operation`) -/

/-- `log_operation`: append one row; the service layer always passes
`request=None`, so no IP is recorded. -/
def logOperation (db : DB) (operatorId : Option Nat) (contractId : Option Nat)
    (objectType : String) (objectId : Nat) (action : String)
    (oldData newData : Option (List (String × JVal))) : DB :=
  { db with
    logs := db.logs ++
      [{ operatorId := operatorId, contractId := contractId,
         objectType := objectType, objectId := objectId, action := action,
         oldData := oldData, newData := newData }] }

/-! ## Service operations on metadata rows -/

/-- `ProjectFile.query.filter_by(id=file_id, contract_id=contract.id).first()`. -/
def findFile (db : DB) (fileId contractId : Nat) : Option ProjectFile :=
  db.files.find? (fun f => f.id == fileId && f.contractId == contractId)

/-- Committing a mutation of the ORM object `pf`: every row with its id
is replaced by the new value. -/
def updateFile (db : DB) (pf : ProjectFile) : DB :=
  { db with files := db.files.map (fun f => if f.id == pf.id then pf else f) }

/-- `FileService.soft_delete_file`.  Note: the source performs NO
permission check here; the uploader-or-admin/boss check lives only in
the HTTP route. -/
def softDeleteFile (db : DB) (c : Contract) (u : User) (fileId : Nat) :
    Except ServiceError (ProjectFile × DB) :=
  match findFile db fileId c.id with
  | none => .error (.fileNotFound "文件不存在")
  | some pf =>
    let pf := { pf with isDeleted := true }
    let db := updateFile db pf
    let db := logOperation db (some u.id) (some c.id) OBJECT_TYPE_FILE pf.id ACTION_DELETE
      none (some [("is_deleted", .b true)])
    .ok (pf, db)

/-- `FileService.restore_file`.  No permission check, and the audit
entry is appended unconditionally, even when the record was not
deleted. -/
def restoreFile (db : DB) (c : Contract) (u : User) (fileId : Nat) :
    Except ServiceError (ProjectFile × DB) :=
  match findFile db fileId c.id with
  | none => .error (.fileNotFound "文件不存在")
  | some pf =>
    let pf := { pf with isDeleted := false }
    let db := updateFile db pf
    let db := logOperation db (some u.id) (some c.id) OBJECT_TYPE_FILE pf.id ACTION_RESTORE
      none (some [("is_deleted", .b false)])
    .ok (pf, db)

/-- `FileService.set_public`.  The source contains a duplicated block:
after the first assignment/commit it recomputes `old = pf.is_public`
(now the NEW value) and assigns/commits again, so the logged old side
always equals the value being set. -/
def setPublic (db : DB) (c : Contract) (u : User) (fileId : Nat) (isPublic : Bool) :
    Except ServiceError (ProjectFile × DB) :=
  if u.role ∈ (["admin", "boss", "sales"] : List String) then
    match findFile db fileId c.id with
    | none => .error (.fileNotFound "文件不存在")
    | some pf =>
      let _old1 := pf.isPublic
      let pf := { pf with isPublic := isPublic }
      let db := updateFile db pf
      let old2 := pf.isPublic
      let pf := { pf with isPublic := isPublic }
      let db := updateFile db pf
      let db := logOperation db (some u.id) (some c.id) OBJECT_TYPE_FILE pf.id ACTION_UPDATE
        (some [("is_public", .b old2)]) (some [("is_public", .b isPublic)])
      .ok (pf, db)
  else .error (.permissionError "无权更改公开状态")

/-- `FileService.get_file_for_download`: not-found/deleted check, the
customer public/category check, then the owner-role check for every
role outside the elevated tuple. -/
def getFileForDownload (db : DB) (c : Contract) (u : User) (fileId : Nat) :
    Except ServiceError (ProjectFile × DB) :=
  match findFile db fileId c.id with
  | none => .error (.fileNotFound "文件不存在或已删除")
  | some pf =>
    if pf.isDeleted then .error (.fileNotFound "文件不存在或已删除")
    else if u.role = "customer" ∧
        (pf.isPublic = false ∨ pf.fileType ∉ (["contract", "tech"] : List String)) then
      .error (.permissionError "无权下载该文件")
    else if u.role ∉ (["admin", "boss", "software_engineer"] : List String) ∧
        pf.ownerRole ≠ "" ∧ pf.ownerRole ≠ u.role then
      .error (.permissionError "无权限下载该部门文件")
    else
      .ok (pf, logOperation db (some u.id) (some c.id) OBJECT_TYPE_FILE pf.id ACTION_DOWNLOAD
        none (some [("download", .b true),
                    ("stored_filename", .s pf.storedFilename),
                    ("original_filename", .s pf.originalFilename)]))

/-! ## `FileService.list_files_for_user` -/

/-- Stable insertion of a record into a list sorted by `createdAt`
descending; models the `ORDER BY created_at DESC` result order. -/
def insertByCreatedDesc (f : ProjectFile) : List ProjectFile → List ProjectFile
  | [] => [f]
  | g :: gs =>
    if g.createdAt < f.createdAt then f :: g :: gs
    else g :: insertByCreatedDesc f gs

/-- Sort by `createdAt` descending. -/
def sortByCreatedDesc (l : List ProjectFile) : List ProjectFile :=
  l.foldr insertByCreatedDesc []

/-- The grouping key used by `latest_only`:
`(f.file_type, f.original_filename or f.stored_filename)`. -/
def fileKey (f : ProjectFile) : String × String :=
  (f.fileType, strOr f.originalFilename f.storedFilename)

/-- The `latest_only` pass: keep the first record of each key group. -/
def dedupByKey : List ProjectFile → List (String × String) → List ProjectFile
  | [], _ => []
  | f :: fs, seen =>
    if fileKey f ∈ seen then dedupByKey fs seen
    else f :: dedupByKey fs (fileKey f :: seen)

/-- `FileService.list_files_for_user`.  The filters are applied in
source order; `fileType = none` or `some ""` models a falsy
`file_type` argument. -/
def listFilesForUser (db : DB) (c : Contract) (user : Option User)
    (fileType : Option String) (isPublic : Option Bool)
    (includeDeleted : Bool) (latestOnly : Bool) : List ProjectFile :=
  let files := db.files.filter (fun f => f.contractId == c.id)
  let files := if includeDeleted then files else files.filter (fun f => !f.isDeleted)
  let files :=
    match fileType with
    | some ft => if ft = "" then files else files.filter (fun f => f.fileType == ft)
    | none => files
  let isCustomer := match user with
    | some u => u.role == "customer"
    | none => false
  let files :=
    if isCustomer then
      files.filter (fun f => f.isPublic && (f.fileType == "contract" || f.fileType == "tech"))
    else
      match isPublic with
      | some b => files.filter (fun f => f.isPublic == b)
      | none => files
  let files := sortByCreatedDesc files
  if latestOnly then dedupByKey files [] else files

/-! ## Upload (`save_uploaded_file`, `save_multiple_files`) -/

/-- `get_role_allowed_types(user)` composed with the membership test of
`save_uploaded_file`. -/
def roleMayUpload (u : User) (fileType : String) : Bool :=
  (roleAllowedTypes (normalizeRole u.role)).contains fileType

/-- `FileService.save_uploaded_file`.  `disk` collects the paths
written so far; `now` models the row's creation timestamp and
`todayStr` the upload date used in the stored name.  The row id models
the autoincrement key. -/
def saveUploadedFile (db : DB) (disk : List Path) (root todayStr : String) (now : Nat)
    (c : Contract) (u : User) (file : UploadedFile)
    (fileType version : String) (isPublic : Bool) (author : String) :
    Except ServiceError (ProjectFile × DB × List Path) :=
  if !(allowedFile file.filename.data (some fileType)) then
    .error (.valueError "不允许的文件类型或扩展名")
  else if !(roleMayUpload u fileType) then
    .error (.permissionError "当前角色无权上传该类别文件")
  else
    let storedFilename := String.mk (generateFileName c fileType version author file.filename todayStr)
    let filePath : Path := [root, getProjectDirName c, storedFilename]
    let disk := disk ++ [filePath]
    let pf : ProjectFile :=
      { id := db.files.length + 1
        contractId := c.id
        uploaderId := u.id
        fileType := fileType
        version := version
        author := author
        originalFilename := file.filename
        storedFilename := storedFilename
        contentType := file.mimetype
        fileSize := file.sizeBytes
        isPublic := isPublic
        ownerRole := u.role
        isDeleted := false
        createdAt := now }
    let db := { db with files := db.files ++ [pf] }
    let db := logOperation db (some u.id) (some c.id) OBJECT_TYPE_FILE pf.id ACTION_UPLOAD
      none (some [("file_type", .s pf.fileType),
                  ("version", .s pf.version),
                  ("original_filename", .s pf.originalFilename),
                  ("stored_filename", .s pf.storedFilename),
                  ("is_public", .b pf.isPublic)])
    .ok (pf, db, disk)

/-- `FileService.save_multiple_files`.  Files with an empty name are
skipped; each successful save commits before the next file is tried;
an exception from a later file propagates as-is (the accumulated
`saved` list is lost to the caller, the committed rows remain). -/
def saveMultipleFiles (db : DB) (disk : List Path) (root todayStr : String) (now : Nat)
    (c : Contract) (u : User) (files : List UploadedFile)
    (fileType version : String) (isPublic : Bool) (author : String) :
    (DB × List Path) × Except ServiceError (List ProjectFile) :=
  match files with
  | [] => ((db, disk), .ok [])
  | f :: rest =>
    if f.filename = "" then
      saveMultipleFiles db disk root todayStr now c u rest fileType version isPublic author
    else
      match saveUploadedFile db disk root todayStr now c u f fileType version isPublic author with
      | .error e => ((db, disk), .error e)
      | .ok (pf, db, disk) =>
        match saveMultipleFiles db disk root todayStr now c u rest fileType version isPublic author with
        | ((db, disk), .ok saved) => ((db, disk), .ok (pf :: saved))
        | ((db, disk), .error e) => ((db, disk), .error e)

/-! ## Preview service (`preview_service.py`) -/

/-- The file system as the preview renderer sees it: existing paths
with their modification times. -/
structure FileSys where
  entries : List (Path × Nat)
deriving DecidableEq

/-- `os.path.exists`. -/
def FileSys.existsPath (fs : FileSys) (p : Path) : Bool :=
  fs.entries.any (fun e => e.1 == p)

/-- `os.path.getmtime`, `none` when the path does not exist (OSError). -/
def FileSys.mtime (fs : FileSys) (p : Path) : Option Nat :=
  (fs.entries.find? (fun e => e.1 == p)).map (fun e => e.2)

/-- `os.replace(src, dst)`: `dst` is overwritten by `src`; the entry
keeps its modification time.  Rename failures (the `except OSError`
arms of the source) are environment faults outside this model. -/
def FileSys.replacePath (fs : FileSys) (src dst : Path) : FileSys :=
  { entries := (fs.entries.filter (fun e => !(e.1 == dst))).map
      (fun e => if e.1 == src then (dst, e.2) else e) }

/-- `PreviewService._is_office_file`. -/
def isOfficeFile (pf : ProjectFile) : Bool :=
  let name := strOr pf.originalFilename (strOr pf.storedFilename "")
  let name := toLowerChars name.data
  match rsplitDot name with
  | none => false
  | some (_, ext) => OFFICE_PREVIEW_EXTS.contains (String.mk ext)

/-- `PreviewService._get_contract_preview_dir` (its own copy of the
sanitized-project-code-or-id rule). -/
def contractPreviewDir (previewRoot : String) (c : Contract) : Path :=
  let projectCode := sanitizePartS c.projectCode
  [previewRoot, if projectCode ≠ "" then projectCode else toString c.id]

/-- The `<base>_preview.pdf` base: sanitized basename without
extension, falling back to `"file"`. -/
def previewBase (name : String) : List Char :=
  orElse (sanitizePart (splitextBase (basenameStr name))) "file".data

/-- `PreviewService._get_preview_target_path`. -/
def previewTargetPath (previewRoot : String) (c : Contract) (pf : ProjectFile) : Path :=
  let name := strOr pf.originalFilename (strOr pf.storedFilename "file")
  contractPreviewDir previewRoot c ++
    [String.mk (previewBase name ++ "_preview.pdf".data)]

/-- The `<src-base>.pdf` candidate tried after conversion: LibreOffice
names its output after the source file's basename. -/
def srcCandidate (previewRoot : String) (c : Contract) (srcPath : Path) : Path :=
  contractPreviewDir previewRoot c ++
    [String.mk (orElse (sanitizePart (splitextBase (basenameStr (srcPath.getLastD ""))))
       "file".data ++ ".pdf".data)]

/-- The `<original-name-base>.pdf` candidate tried last. -/
def origCandidate (previewRoot : String) (c : Contract) (pf : ProjectFile) : Path :=
  contractPreviewDir previewRoot c ++
    [String.mk (previewBase (strOr pf.originalFilename (strOr pf.storedFilename "file")) ++
       ".pdf".data)]

/-- The output-resolution chain that follows a successful converter
run: the exact target, then the `<src-base>.pdf` candidate, then the
`<original-name-base>.pdf` candidate, each non-primary hit renamed onto
the target.  The newest-`.pdf` block of the source is nested inside
the `candidate2`-exists branch after both of its `return` statements
and is therefore unreachable; a faithful translation omits it. -/
def resolveConvertedOutput (target candidate candidate2 : Path) (fs : FileSys) :
    Option Path × FileSys :=
  if fs.existsPath target then (some target, fs)
  else if fs.existsPath candidate then (some target, fs.replacePath candidate target)
  else if fs.existsPath candidate2 then (some target, fs.replacePath candidate2 target)
  else (none, fs)

/-- `PreviewService.get_or_generate_office_preview`.  The external
converter is an oracle: `convertOk` is its success flag and `fsAfter`
the file-system state it leaves behind (used from the conversion step
onwards). -/
def getOrGenerateOfficePreview (previewRoot : String) (c : Contract) (pf : ProjectFile)
    (srcPath : Path) (fs : FileSys) (convertOk : Bool) (fsAfter : FileSys) :
    Option Path × FileSys :=
  if !(isOfficeFile pf) then (none, fs)
  else
    let target := previewTargetPath previewRoot c pf
    let cacheHit :=
      fs.existsPath target &&
        (match fs.mtime target, fs.mtime srcPath with
         | some t, some s => decide (s ≤ t)
         | _, _ => false)
    if cacheHit then (some target, fs)
    else if !convertOk then (none, fsAfter)
    else
      resolveConvertedOutput target (srcCandidate previewRoot c srcPath)
        (origCandidate previewRoot c pf) fsAfter

/-- Equality of `Except` results is decidable componentwise (needed so
that witnesses and counterexamples can be checked by `decide`). -/
instance {ε α : Type} [DecidableEq ε] [DecidableEq α] : DecidableEq (Except ε α) := fun
  | .error e, .error e' => decidable_of_iff (e = e') (by simp)
  | .error _, .ok _ => isFalse (by simp)
  | .ok _, .error _ => isFalse (by simp)
  | .ok a, .ok a' => decidable_of_iff (a = a') (by simp)

/-! ## Concrete fixtures used by witnesses and counterexamples -/

/-- A contract with a non-empty, already-sanitized project code. -/
def sampleContract : Contract :=
  { id := 1, companyName := some "Acme", projectCode := "P1",
    contractNumber := "CN1", name := "Proj" }

/-- A stored, non-deleted, non-public tech file uploaded by user 3 with
`ownerRole = "sales"`. -/
def sampleFile : ProjectFile :=
  { id := 1, contractId := 1, uploaderId := 3, fileType := "tech",
    version := "V1", author := "ann", originalFilename := "a.pdf",
    storedFilename := "s.pdf", contentType := "application/pdf",
    fileSize := 10, isPublic := false, ownerRole := "sales",
    isDeleted := false, createdAt := 5 }

/-- A database holding exactly `sampleFile`. -/
def sampleDB : DB := { files := [sampleFile], logs := [] }

/-- An actor who is neither the uploader of `sampleFile` nor in any
elevated role set of the source. -/
def outsiderUser : User := { id := 7, role := "procurement" }

/-- An elevated actor. -/
def adminUser : User := { id := 2, role := "admin" }

/-- An external viewer. -/
def customerUser : User := { id := 9, role := "customer" }

/-- A public, non-deleted contract file whose `ownerRole` is `"sales"`. -/
def pubContractFile : ProjectFile :=
  { id := 2, contractId := 1, uploaderId := 3, fileType := "contract",
    version := "V1", author := "ann", originalFilename := "c.pdf",
    storedFilename := "sc.pdf", contentType := "application/pdf",
    fileSize := 10, isPublic := true, ownerRole := "sales",
    isDeleted := false, createdAt := 6 }

/-- A database holding exactly `pubContractFile`. -/
def dbPubContract : DB := { files := [pubContractFile], logs := [] }

/-- A public contract file that has been soft-deleted. -/
def deletedPubContract : ProjectFile :=
  { id := 5, contractId := 1, uploaderId := 3, fileType := "contract",
    version := "V1", author := "ann", originalFilename := "d.pdf",
    storedFilename := "sd.pdf", contentType := "application/pdf",
    fileSize := 10, isPublic := true, ownerRole := "", isDeleted := true,
    createdAt := 9 }

/-- A database holding exactly `deletedPubContract`. -/
def dbDeletedPub : DB := { files := [deletedPubContract], logs := [] }

/-- An office document whose stored name is `stored.docx`. -/
def officeFile : ProjectFile :=
  { id := 3, contractId := 1, uploaderId := 3, fileType := "tech",
    version := "V1", author := "ann", originalFilename := "design.docx",
    storedFilename := "stored.docx", contentType := "x", fileSize := 1,
    isPublic := false, ownerRole := "", isDeleted := false, createdAt := 4 }

/-- Disk state before conversion: only the source file exists. -/
def fsBeforeConv : FileSys := ⟨[(["up", "P1", "stored.docx"], 10)]⟩

/-- Disk state after a converter run that produced only an
unexpectedly-named PDF in the output directory. -/
def fsAfterConv : FileSys :=
  ⟨[(["up", "P1", "stored.docx"], 10), (["pv", "P1", "other.pdf"], 50)]⟩

/-- Disk state after a converter run that produced `<src-base>.pdf`. -/
def fsAfterConvSrcName : FileSys :=
  ⟨[(["up", "P1", "stored.docx"], 10), (["pv", "P1", "stored.pdf"], 50)]⟩

/-- An upload that passes both validation gates for category "tech". -/
def goodUpload : UploadedFile :=
  { filename := "a.pdf", mimetype := "application/pdf", sizeBytes := 10 }

/-- An upload with a disallowed extension. -/
def badUpload : UploadedFile := { filename := "bad.exe", mimetype := "app", sizeBytes := 1 }

/-- An upload with an empty filename (skipped by the batch loop). -/
def emptyUpload : UploadedFile := { filename := "", mimetype := "app", sizeBytes := 0 }

/-- A character is safe for a stored filename when it is neither one
of the stripped path-unsafe characters nor a space. -/
def safeChar (ch : Char) : Bool := !(invalidChars.contains ch) && !(ch == ' ')

/-- A contract with no company relation (exercises the "NoCompany"
placeholder). -/
def c8Contract : Contract :=
  { id := 4, companyName := none, projectCode := "P2", contractNumber := "CN2", name := "N2" }

/-! ## Shared helper lemmas -/

/-- Replacing rows by a value they already equal leaves the table
unchanged. -/
theorem updateFile_self (db : DB) (pf : ProjectFile)
    (h : ∀ g ∈ db.files, g.id = pf.id → g = pf) : updateFile db pf = db := by
  have hmap : db.files.map (fun f => if f.id == pf.id then pf else f) = db.files := by
    conv_rhs => rw [← List.map_id db.files]
    apply List.map_congr_left
    intro g hg
    by_cases hid : g.id = pf.id
    · simp [hid, h g hg hid]
    · simp [hid]
  unfold updateFile
  rw [hmap]

/-- Setting `isDeleted` to the value it already has is the identity. -/
theorem setIsDeleted_eta (pf : ProjectFile) (h : pf.isDeleted = false) :
    { pf with isDeleted := false } = pf := by
  cases pf
  simp_all

/-- Membership through the stable descending insertion. -/
theorem mem_insertByCreatedDesc {f g : ProjectFile} {l : List ProjectFile} :
    g ∈ insertByCreatedDesc f l ↔ g = f ∨ g ∈ l := by
  induction l with
  | nil => simp [insertByCreatedDesc]
  | cons x t ih =>
    by_cases hlt : x.createdAt < f.createdAt
    · simp [insertByCreatedDesc, hlt]
    · simp [insertByCreatedDesc, hlt, ih]
      tauto

/-- Sorting by creation time preserves membership. -/
theorem mem_sortByCreatedDesc {g : ProjectFile} {l : List ProjectFile} :
    g ∈ sortByCreatedDesc l ↔ g ∈ l := by
  induction l with
  | nil => simp [sortByCreatedDesc]
  | cons x t ih =>
    show g ∈ insertByCreatedDesc x (sortByCreatedDesc t) ↔ _
    rw [mem_insertByCreatedDesc]
    simp [ih]

/-- The `latest_only` pass only drops records. -/
theorem mem_dedupByKey {g : ProjectFile} :
    ∀ {l : List ProjectFile} {seen : List (String × String)},
      g ∈ dedupByKey l seen → g ∈ l := by
  intro l
  induction l with
  | nil => intro seen h; simp [dedupByKey] at h
  | cons x t ih =>
    intro seen h
    by_cases hk : fileKey x ∈ seen
    · simp [dedupByKey, hk] at h
      exact List.mem_cons_of_mem x (ih h)
    · simp [dedupByKey, hk] at h
      rcases h with h | h
      · simp [h]
      · exact List.mem_cons_of_mem x (ih h)

/-! ## C1 — soft delete and actor permissions -/

/-- C1 (amended): `FileService.soft_delete_file` performs no permission
check at all.  For EVERY actor — uploader or not, elevated or not — an
existing record is marked deleted, a delete audit entry is appended,
and the record is returned; `PermissionError` is never raised.  (The
uploader-or-admin/boss gate exists only in the HTTP route, not in this
service method.) -/
theorem softDeleteFile_ignores_actor_permissions
    (db : DB) (c : Contract) (u : User) (fileId : Nat) (pf : ProjectFile)
    (h : findFile db fileId c.id = some pf) :
    ∃ db', softDeleteFile db c u fileId = .ok ({ pf with isDeleted := true }, db') ∧
      db'.logs = db.logs ++
        [{ operatorId := some u.id, contractId := some c.id,
           objectType := OBJECT_TYPE_FILE, objectId := pf.id,
           action := ACTION_DELETE, oldData := none,
           newData := some [("is_deleted", JVal.b true)] }] := by
  refine ⟨logOperation (updateFile db { pf with isDeleted := true }) (some u.id) (some c.id)
    OBJECT_TYPE_FILE pf.id ACTION_DELETE none (some [("is_deleted", JVal.b true)]), ?_, ?_⟩
  · simp [softDeleteFile, h]
  · simp [logOperation, updateFile]

/-- C1 witness: the amended theorem applied to `sampleDB`. -/
theorem softDeleteFile_ignores_actor_permissions_witness :
    findFile sampleDB 1 sampleContract.id = some sampleFile ∧
    (∃ db', softDeleteFile sampleDB sampleContract outsiderUser 1 =
        .ok ({ sampleFile with isDeleted := true }, db') ∧
      db'.logs = sampleDB.logs ++
        [{ operatorId := some outsiderUser.id, contractId := some sampleContract.id,
           objectType := OBJECT_TYPE_FILE, objectId := sampleFile.id,
           action := ACTION_DELETE, oldData := none,
           newData := some [("is_deleted", JVal.b true)] }]) :=
  ⟨by decide,
   softDeleteFile_ignores_actor_permissions sampleDB sampleContract outsiderUser 1 sampleFile
     (by decide)⟩

/-- C1 counterexample: `outsiderUser` (role `"procurement"`, id 7) is
neither the uploader (id 3) nor in any elevated role, yet
`soft_delete_file` succeeds and sets `isDeleted := true` — the claimed
`PermissionError` never happens and the record does not stay
unchanged. -/
theorem softDeleteFile_outsider_succeeds_cex :
    outsiderUser.id ≠ sampleFile.uploaderId ∧
    outsiderUser.role ∉ (["admin", "boss", "software_engineer"] : List String) ∧
    softDeleteFile sampleDB sampleContract outsiderUser 1 =
      .ok ({ sampleFile with isDeleted := true },
        { files := [{ sampleFile with isDeleted := true }],
          logs := [{ operatorId := some 7, contractId := some 1,
                     objectType := "file", objectId := 1, action := "delete",
                     oldData := none,
                     newData := some [("is_deleted", JVal.b true)] }] }) := by
  decide

/-! ## C5 — restore on a non-deleted record -/

/-- C5 (amended): on a non-deleted record `restore_file` leaves the
record and the file table unchanged, but a restore audit entry is
STILL appended on every call — the no-op covers the record, not the
audit log.  `huniq` rules out distinct rows sharing one primary key. -/
theorem restoreFile_nondeleted_keeps_record_appends_audit
    (db : DB) (c : Contract) (u : User) (fileId : Nat) (pf : ProjectFile)
    (h : findFile db fileId c.id = some pf)
    (hnd : pf.isDeleted = false)
    (huniq : ∀ g ∈ db.files, g.id = pf.id → g = pf) :
    ∃ db', restoreFile db c u fileId = .ok (pf, db') ∧
      db'.files = db.files ∧
      db'.logs = db.logs ++
        [{ operatorId := some u.id, contractId := some c.id,
           objectType := OBJECT_TYPE_FILE, objectId := pf.id,
           action := ACTION_RESTORE, oldData := none,
           newData := some [("is_deleted", JVal.b false)] }] := by
  have heta : { pf with isDeleted := false } = pf := setIsDeleted_eta pf hnd
  have hupd : updateFile db pf = db := updateFile_self db pf huniq
  refine ⟨logOperation db (some u.id) (some c.id) OBJECT_TYPE_FILE pf.id ACTION_RESTORE
    none (some [("is_deleted", JVal.b false)]), ?_, ?_, ?_⟩
  · simp [restoreFile, h, heta, hupd]
  · simp [logOperation]
  · simp [logOperation]

/-- C5 witness: the amended theorem applied to `sampleDB`. -/
theorem restoreFile_nondeleted_keeps_record_appends_audit_witness :
    (findFile sampleDB 1 sampleContract.id = some sampleFile ∧
     sampleFile.isDeleted = false ∧
     ∀ g ∈ sampleDB.files, g.id = sampleFile.id → g = sampleFile) ∧
    (∃ db', restoreFile sampleDB sampleContract outsiderUser 1 = .ok (sampleFile, db') ∧
      db'.files = sampleDB.files ∧
      db'.logs = sampleDB.logs ++
        [{ operatorId := some outsiderUser.id, contractId := some sampleContract.id,
           objectType := OBJECT_TYPE_FILE, objectId := sampleFile.id,
           action := ACTION_RESTORE, oldData := none,
           newData := some [("is_deleted", JVal.b false)] }]) :=
  ⟨by decide,
   restoreFile_nondeleted_keeps_record_appends_audit sampleDB sampleContract outsiderUser 1
     sampleFile (by decide) (by decide) (by decide)⟩

/-- C5 counterexample: restoring the non-deleted `sampleFile` returns
the record unchanged but appends a restore audit entry (the log grows
from empty to one entry), contradicting "no new audit entry is
appended". -/
theorem restoreFile_nondeleted_appends_audit_cex :
    sampleFile.isDeleted = false ∧
    restoreFile sampleDB sampleContract outsiderUser 1 =
      .ok (sampleFile,
        { files := [sampleFile],
          logs := [{ operatorId := some 7, contractId := some 1,
                     objectType := "file", objectId := 1, action := "restore",
                     oldData := none,
                     newData := some [("is_deleted", JVal.b false)] }] }) := by
  decide

/-! ## C6 — read-path resolution order -/

/-- C6 (amended): `get_file_path` tries the project-code directory
path, then the numeric-contract-id path, and returns the first that
exists; when NEITHER exists it returns the flat `<root>/<storedName>`
path — not the primary path. -/
theorem getFilePath_fallback_chain (fs : List Path) (root : String)
    (c : Contract) (pf : ProjectFile) :
    ([root, getProjectDirName c, pf.storedFilename] ∈ fs →
      getFilePath fs root c pf = [root, getProjectDirName c, pf.storedFilename]) ∧
    ([root, getProjectDirName c, pf.storedFilename] ∉ fs →
      [root, toString c.id, pf.storedFilename] ∈ fs →
      getFilePath fs root c pf = [root, toString c.id, pf.storedFilename]) ∧
    ([root, getProjectDirName c, pf.storedFilename] ∉ fs →
      [root, toString c.id, pf.storedFilename] ∉ fs →
      getFilePath fs root c pf = [root, pf.storedFilename]) :=
  ⟨fun h1 => by simp [getFilePath, h1],
   fun h1 h2 => by simp [getFilePath, h1, h2],
   fun h1 h2 => by simp [getFilePath, h1, h2]⟩

/-- C6 witness: the first-tier clause of the amended theorem at a file
system holding exactly the primary path. -/
theorem getFilePath_fallback_chain_witness :
    (["up", getProjectDirName sampleContract, sampleFile.storedFilename] : Path) ∈
        [(["up", "P1", "s.pdf"] : Path)] ∧
    getFilePath [["up", "P1", "s.pdf"]] "up" sampleContract sampleFile =
      ["up", getProjectDirName sampleContract, sampleFile.storedFilename] :=
  ⟨by decide,
   (getFilePath_fallback_chain [["up", "P1", "s.pdf"]] "up" sampleContract sampleFile).1
     (by decide)⟩

/-- C6 counterexample: with nothing on disk, `get_file_path` returns
the FLAT path `["up", "s.pdf"]`, while the claim requires the primary
path `["up", "P1", "s.pdf"]`. -/
theorem getFilePath_none_exists_returns_flat_cex :
    getFilePath [] "up" sampleContract sampleFile = ["up", "s.pdf"] ∧
    getProjectDirName sampleContract = "P1" ∧
    (["up", "s.pdf"] : Path) ≠ ["up", "P1", "s.pdf"] := by
  decide

/-! ## C2 — the download permission checks -/

/-- C2 (amended): for a found, non-deleted record the download checks
of `get_file_for_download` are CONJUNCTIVE, not a priority matrix:
(1) the elevated roles (admin, boss, software_engineer) always
succeed; (2) the customer role must pass BOTH the
`isPublic ∧ category ∈ {contract, tech}` check AND the owner-role
check (`ownerRole` unset or equal to the viewer role), because the
owner-role check applies to every role outside the elevated tuple;
(3) every other role succeeds exactly when the owner-role check
passes. -/
theorem getFileForDownload_checks_are_conjunctive
    (db : DB) (c : Contract) (u : User) (fileId : Nat) (pf : ProjectFile)
    (h : findFile db fileId c.id = some pf)
    (hnd : pf.isDeleted = false) :
    (u.role ∈ (["admin", "boss", "software_engineer"] : List String) →
      ∃ db', getFileForDownload db c u fileId = .ok (pf, db')) ∧
    (u.role = "customer" →
      ((∃ db', getFileForDownload db c u fileId = .ok (pf, db')) ↔
        (pf.isPublic = true ∧ pf.fileType ∈ (["contract", "tech"] : List String) ∧
         (pf.ownerRole = "" ∨ pf.ownerRole = u.role)))) ∧
    (u.role ∉ (["admin", "boss", "software_engineer"] : List String) →
      u.role ≠ "customer" →
      ((∃ db', getFileForDownload db c u fileId = .ok (pf, db')) ↔
        (pf.ownerRole = "" ∨ pf.ownerRole = u.role))) := by
  refine ⟨?_, ?_, ?_⟩
  · intro helev
    have hne : u.role ≠ "customer" := by
      intro hc
      rw [hc] at helev
      simp at helev
    refine ⟨logOperation db (some u.id) (some c.id) OBJECT_TYPE_FILE pf.id ACTION_DOWNLOAD
      none (some [("download", JVal.b true), ("stored_filename", JVal.s pf.storedFilename),
                  ("original_filename", JVal.s pf.originalFilename)]), ?_⟩
    simp [getFileForDownload, h, hnd, hne, helev]
  · intro hcust
    have helevne : u.role ∉ (["admin", "boss", "software_engineer"] : List String) := by
      rw [hcust]; decide
    by_cases hpub : pf.isPublic = true <;>
      by_cases hft : pf.fileType ∈ (["contract", "tech"] : List String) <;>
        by_cases hor1 : pf.ownerRole = "" <;>
          by_cases hor2 : pf.ownerRole = "customer" <;>
            simp [getFileForDownload, h, hnd, hcust, helevne, hpub, hft, hor1, hor2]
  · intro helevne hne
    by_cases hor1 : pf.ownerRole = "" <;>
      by_cases hor2 : pf.ownerRole = u.role <;>
        simp [getFileForDownload, h, hnd, hne, helevne, hor1, hor2]

/-- C2 witness: the elevated clause at a concrete store — `adminUser`
downloads the non-public `sampleFile`. -/
theorem getFileForDownload_checks_are_conjunctive_witness :
    (findFile sampleDB 1 sampleContract.id = some sampleFile ∧
     sampleFile.isDeleted = false ∧
     adminUser.role ∈ (["admin", "boss", "software_engineer"] : List String)) ∧
    (∃ db', getFileForDownload sampleDB sampleContract adminUser 1 = .ok (sampleFile, db')) :=
  ⟨by decide,
   (getFileForDownload_checks_are_conjunctive sampleDB sampleContract adminUser 1 sampleFile
     (by decide) (by decide)).1 (by decide)⟩

/-- C2 counterexample: a customer asking for a PUBLIC, non-deleted
CONTRACT file — which clause (2) of the claim says is downloadable — is
denied with `PermissionError`, because the record's `ownerRole`
(`"sales"`) also gets checked against the customer role. -/
theorem getFileForDownload_customer_denied_public_contract_cex :
    customerUser.role = "customer" ∧
    pubContractFile.isPublic = true ∧
    pubContractFile.fileType = "contract" ∧
    pubContractFile.isDeleted = false ∧
    getFileForDownload dbPubContract sampleContract customerUser 2 =
      .error (.permissionError "无权限下载该部门文件") := by
  decide

/-! ## C3 — customer visibility in listings -/

/-- C3 (amended): a customer listing never contains a non-public
record or one whose category is outside {contract, tech}; records with
`isDeleted = true` are excluded only when `includeDeleted = false` —
passing `includeDeleted = true` DOES return soft-deleted public
records to the customer. -/
theorem listFilesForUser_customer_visibility
    (db : DB) (c : Contract) (u : User) (fileType : Option String)
    (isPublic : Option Bool) (includeDeleted latestOnly : Bool)
    (hcust : u.role = "customer") :
    ∀ f ∈ listFilesForUser db c (some u) fileType isPublic includeDeleted latestOnly,
      f.isPublic = true ∧ (f.fileType = "contract" ∨ f.fileType = "tech") ∧
      (includeDeleted = false → f.isDeleted = false) := by
  intro f hf
  have hbase : ∀ (l : List ProjectFile) (p : ProjectFile → Bool),
      f ∈ (if latestOnly = true then dedupByKey (sortByCreatedDesc (List.filter p l)) []
           else sortByCreatedDesc (List.filter p l)) →
      f ∈ l ∧ p f = true := by
    intro l p hl
    have hm : f ∈ List.filter p l := by
      by_cases h : latestOnly = true
      · rw [if_pos h] at hl
        exact mem_sortByCreatedDesc.mp (mem_dedupByKey hl)
      · rw [if_neg h] at hl
        exact mem_sortByCreatedDesc.mp hl
    exact ⟨(List.mem_filter.mp hm).1, (List.mem_filter.mp hm).2⟩
  have hdel : f ∈ List.filter (fun a => !a.isDeleted && a.contractId == c.id) db.files →
      f.isDeleted = false := by
    intro hx
    have h2 := (List.mem_filter.mp hx).2
    simp at h2
    exact h2.1
  cases fileType with
  | none =>
    simp [listFilesForUser, hcust] at hf
    obtain ⟨hx, hpred⟩ := hbase _ _ hf
    simp at hpred
    refine ⟨hpred.1, hpred.2, ?_⟩
    intro hincl
    rw [hincl] at hx
    simp only [Bool.false_eq_true, if_false] at hx
    exact hdel hx
  | some ft =>
    by_cases hft : ft = ""
    · simp [listFilesForUser, hcust, hft] at hf
      obtain ⟨hx, hpred⟩ := hbase _ _ hf
      simp at hpred
      refine ⟨hpred.1, hpred.2, ?_⟩
      intro hincl
      rw [hincl] at hx
      simp only [Bool.false_eq_true, if_false] at hx
      exact hdel hx
    · simp [listFilesForUser, hcust, hft] at hf
      obtain ⟨hx, hpred⟩ := hbase _ _ hf
      simp at hpred
      refine ⟨?_, ?_, ?_⟩
      · tauto
      · tauto
      · intro hincl
        rw [hincl] at hx
        simp only [Bool.false_eq_true, if_false] at hx
        exact hdel hx

/-- C3 witness: the amended theorem at a concrete customer listing. -/
theorem listFilesForUser_customer_visibility_witness :
    customerUser.role = "customer" ∧
    ∀ f ∈ listFilesForUser dbPubContract sampleContract (some customerUser) none none false false,
      f.isPublic = true ∧ (f.fileType = "contract" ∨ f.fileType = "tech") ∧
      (false = false → f.isDeleted = false) :=
  ⟨by decide,
   listFilesForUser_customer_visibility dbPubContract sampleContract customerUser none none
     false false (by decide)⟩

/-- C3 counterexample: with `includeDeleted = true` the customer
listing RETURNS the soft-deleted public contract file, contradicting
"never returns a record with isDeleted=true" for every flag
combination. -/
theorem listFilesForUser_customer_includeDeleted_leaks_cex :
    customerUser.role = "customer" ∧
    listFilesForUser dbDeletedPub sampleContract (some customerUser) none none true false =
      [deletedPubContract] ∧
    deletedPubContract.isDeleted = true := by
  decide

/-! ## C4 — the audit diff written by set_public -/

/-- C4 (code bug): for every permitted actor the audit entry written by
`set_public` carries the NEW `isPublic` value on BOTH sides — the
source recomputes `old = pf.is_public` after the first assignment, so
the pre-call value is never logged. -/
theorem setPublic_audit_old_side_equals_new_value
    (db : DB) (c : Contract) (u : User) (fileId : Nat) (pf : ProjectFile) (b : Bool)
    (hrole : u.role ∈ (["admin", "boss", "sales"] : List String))
    (h : findFile db fileId c.id = some pf) :
    ∃ db', setPublic db c u fileId b = .ok ({ pf with isPublic := b }, db') ∧
      db'.logs = db.logs ++
        [{ operatorId := some u.id, contractId := some c.id,
           objectType := OBJECT_TYPE_FILE, objectId := pf.id,
           action := ACTION_UPDATE,
           oldData := some [("is_public", JVal.b b)],
           newData := some [("is_public", JVal.b b)] }] := by
  refine ⟨logOperation (updateFile (updateFile db { pf with isPublic := b })
      { pf with isPublic := b }) (some u.id) (some c.id) OBJECT_TYPE_FILE pf.id ACTION_UPDATE
      (some [("is_public", JVal.b b)]) (some [("is_public", JVal.b b)]), ?_, ?_⟩
  · simp [setPublic, h, hrole]
  · simp [logOperation, updateFile]

/-- C4 witness: `sampleFile.isPublic` is `false`, `adminUser` sets it
to `true`, and the audit entry's old side reads `true`. -/
theorem setPublic_audit_old_side_equals_new_value_witness :
    (adminUser.role ∈ (["admin", "boss", "sales"] : List String) ∧
     findFile sampleDB 1 sampleContract.id = some sampleFile ∧
     sampleFile.isPublic = false) ∧
    (∃ db', setPublic sampleDB sampleContract adminUser 1 true =
        .ok ({ sampleFile with isPublic := true }, db') ∧
      db'.logs = sampleDB.logs ++
        [{ operatorId := some adminUser.id, contractId := some sampleContract.id,
           objectType := OBJECT_TYPE_FILE, objectId := sampleFile.id,
           action := ACTION_UPDATE,
           oldData := some [("is_public", JVal.b true)],
           newData := some [("is_public", JVal.b true)] }]) :=
  ⟨by decide,
   setPublic_audit_old_side_equals_new_value sampleDB sampleContract adminUser 1 sampleFile true
     (by decide) (by decide)⟩

/-! ## C7 — preview output resolution after conversion -/

/-- Whatever tier of the resolution chain fires, a successful
resolution always hands back the canonical target path. -/
theorem resolveConvertedOutput_some_eq_target
    (target candidate candidate2 : Path) (fs : FileSys) (p : Path) (fs' : FileSys)
    (h : resolveConvertedOutput target candidate candidate2 fs = (some p, fs')) :
    p = target := by
  unfold resolveConvertedOutput at h
  split_ifs at h <;> simp at h <;> exact h.1.symm

/-- C7 (amended): after a successful converter run (with no prior
cache hit) the output is resolved by trying, in order, the exact
target, then `<source-basename>.pdf`, then
`<original-name-basename>.pdf`, renaming a non-primary hit onto the
canonical `<base>_preview.pdf` target; every successful return yields
the target path.  The most-recently-modified-`.pdf` fallback of the
claim is unreachable dead code: when none of the three names exists
the call returns `None` even if other `.pdf` files are present. -/
theorem getOrGenerateOfficePreview_resolution_chain
    (previewRoot : String) (c : Contract) (pf : ProjectFile) (srcPath : Path)
    (fs fsAfter : FileSys)
    (hoffice : isOfficeFile pf = true)
    (hnohit : fs.existsPath (previewTargetPath previewRoot c pf) = false) :
    (fsAfter.existsPath (previewTargetPath previewRoot c pf) = true →
      getOrGenerateOfficePreview previewRoot c pf srcPath fs true fsAfter =
        (some (previewTargetPath previewRoot c pf), fsAfter)) ∧
    (fsAfter.existsPath (previewTargetPath previewRoot c pf) = false →
      fsAfter.existsPath (srcCandidate previewRoot c srcPath) = true →
      getOrGenerateOfficePreview previewRoot c pf srcPath fs true fsAfter =
        (some (previewTargetPath previewRoot c pf),
         fsAfter.replacePath (srcCandidate previewRoot c srcPath)
           (previewTargetPath previewRoot c pf))) ∧
    (fsAfter.existsPath (previewTargetPath previewRoot c pf) = false →
      fsAfter.existsPath (srcCandidate previewRoot c srcPath) = false →
      fsAfter.existsPath (origCandidate previewRoot c pf) = true →
      getOrGenerateOfficePreview previewRoot c pf srcPath fs true fsAfter =
        (some (previewTargetPath previewRoot c pf),
         fsAfter.replacePath (origCandidate previewRoot c pf)
           (previewTargetPath previewRoot c pf))) ∧
    (fsAfter.existsPath (previewTargetPath previewRoot c pf) = false →
      fsAfter.existsPath (srcCandidate previewRoot c srcPath) = false →
      fsAfter.existsPath (origCandidate previewRoot c pf) = false →
      getOrGenerateOfficePreview previewRoot c pf srcPath fs true fsAfter =
        (none, fsAfter)) ∧
    (∀ (p : Path) (fs' : FileSys),
      getOrGenerateOfficePreview previewRoot c pf srcPath fs true fsAfter = (some p, fs') →
      p = previewTargetPath previewRoot c pf) := by
  refine ⟨?_, ?_, ?_, ?_, ?_⟩
  · intro h1
    simp [getOrGenerateOfficePreview, resolveConvertedOutput, hoffice, hnohit, h1]
  · intro h1 h2
    simp [getOrGenerateOfficePreview, resolveConvertedOutput, hoffice, hnohit, h1, h2]
  · intro h1 h2 h3
    simp [getOrGenerateOfficePreview, resolveConvertedOutput, hoffice, hnohit, h1, h2, h3]
  · intro h1 h2 h3
    simp [getOrGenerateOfficePreview, resolveConvertedOutput, hoffice, hnohit, h1, h2, h3]
  · intro p fs' hres
    have hr : resolveConvertedOutput (previewTargetPath previewRoot c pf)
        (srcCandidate previewRoot c srcPath) (origCandidate previewRoot c pf) fsAfter =
        (some p, fs') := by
      simpa [getOrGenerateOfficePreview, hoffice, hnohit] using hres
    exact resolveConvertedOutput_some_eq_target _ _ _ _ _ _ hr

/-- C7 witness: the second-tier clause at a concrete state — the
converter produced `stored.pdf`, which is renamed onto
`design_preview.pdf`. -/
theorem getOrGenerateOfficePreview_resolution_chain_witness :
    (isOfficeFile officeFile = true ∧
     fsBeforeConv.existsPath (previewTargetPath "pv" sampleContract officeFile) = false ∧
     fsAfterConvSrcName.existsPath (previewTargetPath "pv" sampleContract officeFile) = false ∧
     fsAfterConvSrcName.existsPath (srcCandidate "pv" sampleContract
       ["up", "P1", "stored.docx"]) = true) ∧
    getOrGenerateOfficePreview "pv" sampleContract officeFile ["up", "P1", "stored.docx"]
        fsBeforeConv true fsAfterConvSrcName =
      (some (previewTargetPath "pv" sampleContract officeFile),
       fsAfterConvSrcName.replacePath
         (srcCandidate "pv" sampleContract ["up", "P1", "stored.docx"])
         (previewTargetPath "pv" sampleContract officeFile)) :=
  ⟨⟨rfl, rfl, rfl, rfl⟩,
   (getOrGenerateOfficePreview_resolution_chain "pv" sampleContract officeFile
     ["up", "P1", "stored.docx"] fsBeforeConv fsAfterConvSrcName
     rfl rfl).2.1 rfl rfl⟩

/-- C7 counterexample: a successful converter run left only
`other.pdf` — the most recently modified `.pdf` in the output
directory — yet `get_or_generate_office_preview` returns `none` and
renames nothing: the claimed newest-`.pdf` fallback never runs. -/
theorem getOrGenerateOfficePreview_newest_pdf_never_used_cex :
    isOfficeFile officeFile = true ∧
    fsAfterConv.existsPath ["pv", "P1", "other.pdf"] = true ∧
    getOrGenerateOfficePreview "pv" sampleContract officeFile ["up", "P1", "stored.docx"]
        fsBeforeConv true fsAfterConv =
      (none, fsAfterConv) :=
  ⟨rfl, rfl, rfl⟩

/-! ## C9 — batch upload -/

/-- A successful single save appends exactly its new row to the file
table. -/
theorem saveUploadedFile_ok_files
    (db : DB) (disk : List Path) (root todayStr : String) (now : Nat)
    (c : Contract) (u : User) (f : UploadedFile)
    (fileType version : String) (isPublic : Bool) (author : String)
    (pf : ProjectFile) (db' : DB) (disk' : List Path)
    (h : saveUploadedFile db disk root todayStr now c u f fileType version isPublic author =
      .ok (pf, db', disk')) :
    db'.files = db.files ++ [pf] := by
  unfold saveUploadedFile at h
  split_ifs at h
  · simp only [logOperation, Except.ok.injEq, Prod.mk.injEq] at h
    obtain ⟨hpf, hdb, -⟩ := h
    rw [← hdb]
    simp [hpf]

/-- C9 (amended): `save_multiple_files` skips files with empty names
and saves the rest one by one, each save committing before the next is
tried, so rows saved before a failing file remain in the table
(`∃ tail`, the final table extends the initial one); a failure from a
later file propagates to the caller as the underlying exception — the
count of successes is NOT attached to it (see the counterexample). -/
theorem saveMultipleFiles_skips_empty_keeps_saved
    (db : DB) (disk : List Path) (root todayStr : String) (now : Nat)
    (c : Contract) (u : User) (files : List UploadedFile)
    (fileType version : String) (isPublic : Bool) (author : String) :
    (∀ (f : UploadedFile) (rest : List UploadedFile), f.filename = "" →
      saveMultipleFiles db disk root todayStr now c u (f :: rest)
          fileType version isPublic author =
        saveMultipleFiles db disk root todayStr now c u rest
          fileType version isPublic author) ∧
    (∃ tail,
      ((saveMultipleFiles db disk root todayStr now c u files
          fileType version isPublic author).1.1).files = db.files ++ tail) := by
  constructor
  · intro f rest hf
    simp [saveMultipleFiles, hf]
  · induction files generalizing db disk with
    | nil => exact ⟨[], by simp [saveMultipleFiles]⟩
    | cons f rest ih =>
      by_cases hf : f.filename = ""
      · have := ih db disk
        simpa [saveMultipleFiles, hf] using this
      · cases hsave : saveUploadedFile db disk root todayStr now c u f
            fileType version isPublic author with
        | error e =>
          refine ⟨[], ?_⟩
          simp [saveMultipleFiles, hf, hsave]
        | ok res =>
          obtain ⟨pf, db', disk'⟩ := res
          have hdb' : db'.files = db.files ++ [pf] :=
            saveUploadedFile_ok_files db disk root todayStr now c u f
              fileType version isPublic author pf db' disk' hsave
          obtain ⟨tail', htail'⟩ := ih db' disk'
          refine ⟨pf :: tail', ?_⟩
          rcases hrec : saveMultipleFiles db' disk' root todayStr now c u rest
              fileType version isPublic author with ⟨⟨db2, disk2⟩, exc⟩
          rw [hrec] at htail'
          cases exc <;>
            simp [saveMultipleFiles, hf, hsave, hrec] <;>
              rw [htail', hdb'] <;> simp

/-- C9 witness: the amended theorem at a concrete batch — the
empty-named file is skipped and the table after the batch extends the
initial (empty) table. -/
theorem saveMultipleFiles_skips_empty_keeps_saved_witness :
    (saveMultipleFiles ⟨[], []⟩ [] "up" "20251012" 5 sampleContract adminUser
        (emptyUpload :: [goodUpload]) "tech" "V1" false "ann" =
      saveMultipleFiles ⟨[], []⟩ [] "up" "20251012" 5 sampleContract adminUser
        [goodUpload] "tech" "V1" false "ann") ∧
    (∃ tail,
      ((saveMultipleFiles ⟨[], []⟩ [] "up" "20251012" 5 sampleContract adminUser
          (emptyUpload :: [goodUpload]) "tech" "V1" false "ann").1.1).files =
        (⟨[], []⟩ : DB).files ++ tail) :=
  ⟨(saveMultipleFiles_skips_empty_keeps_saved ⟨[], []⟩ [] "up" "20251012" 5
      sampleContract adminUser (emptyUpload :: [goodUpload]) "tech" "V1" false "ann").1
      emptyUpload [goodUpload] rfl,
   (saveMultipleFiles_skips_empty_keeps_saved ⟨[], []⟩ [] "up" "20251012" 5
      sampleContract adminUser (emptyUpload :: [goodUpload]) "tech" "V1" false "ann").2⟩

/-- C9 counterexample: the batches `[bad]` (0 successes) and
`[good, bad]` (1 success, whose row remains committed) surface the
IDENTICAL error value, so the failure is NOT surfaced together with
the count of successfully ingested files — the error carries no such
count and the caller cannot recover it. -/
theorem saveMultipleFiles_error_carries_no_count_cex :
    (saveMultipleFiles ⟨[], []⟩ [] "up" "20251012" 5 sampleContract adminUser
        [badUpload] "tech" "V1" false "ann").2 =
      .error (.valueError "不允许的文件类型或扩展名") ∧
    (saveMultipleFiles ⟨[], []⟩ [] "up" "20251012" 5 sampleContract adminUser
        [goodUpload, badUpload] "tech" "V1" false "ann").2 =
      .error (.valueError "不允许的文件类型或扩展名") ∧
    ((saveMultipleFiles ⟨[], []⟩ [] "up" "20251012" 5 sampleContract adminUser
        [badUpload] "tech" "V1" false "ann").1.1).files.length = 0 ∧
    ((saveMultipleFiles ⟨[], []⟩ [] "up" "20251012" 5 sampleContract adminUser
        [goodUpload, badUpload] "tech" "V1" false "ann").1.1).files.length = 1 :=
  ⟨rfl, rfl, rfl, rfl⟩

/-! ## C8 — stored-name generation -/

/-- Digits are neither stripped characters nor spaces. -/
theorem safeChar_of_isDigit (c : Char) (h : c.isDigit = true) : safeChar c = true := by
  simp [Char.isDigit, Char.le_def] at h
  obtain ⟨h1, h2⟩ := h
  simp only [safeChar, invalidChars, List.contains, Bool.and_eq_true, Bool.not_eq_true']
  constructor
  · cases helem : List.elem c ['\\', '/', ':', '*', '?', '"', '<', '>', '|'] with
    | false => rfl
    | true =>
      have hmem : c ∈ ['\\', '/', ':', '*', '?', '"', '<', '>', '|'] := by
        simpa using helem
      simp only [List.mem_cons, List.not_mem_nil, or_false] at hmem
      rcases hmem with rfl | rfl | rfl | rfl | rfl | rfl | rfl | rfl | rfl <;>
        first
          | exact absurd h1 (by decide)
          | exact absurd h2 (by decide)
  · rw [beq_eq_false_iff_ne]
    rintro rfl
    exact absurd h1 (by decide)

/-- Every character surviving `sanitize_part` is safe. -/
theorem sanitizePart_safe {s : List Char} : ∀ ch ∈ sanitizePart s, safeChar ch = true := by
  intro ch hch
  obtain ⟨c0, hc0, rfl⟩ := List.mem_map.mp hch
  obtain ⟨-, hp⟩ := List.mem_filter.mp hc0
  by_cases hsp : c0 = ' '
  · simp only [hsp, if_pos]
    decide
  · rw [if_neg hsp]
    simp only [safeChar, Bool.and_eq_true, Bool.not_eq_true']
    constructor
    · simpa using hp
    · rw [beq_eq_false_iff_ne]
      exact hsp

/-- A character of an underscore-joined list comes from the separator
or from one of the parts. -/
theorem mem_of_mem_intercalate {sep : List Char} {ch : Char} :
    ∀ {ps : List (List Char)}, ch ∈ List.intercalate sep ps → ch ∈ sep ∨ ∃ p ∈ ps, ch ∈ p := by
  intro ps
  induction ps with
  | nil => intro h; simp [List.intercalate] at h
  | cons p rest ih =>
    intro h
    cases rest with
    | nil =>
      simp [List.intercalate] at h
      exact Or.inr ⟨p, by simp, h⟩
    | cons q rest2 =>
      have hexp : List.intercalate sep (p :: q :: rest2) =
          p ++ sep ++ List.intercalate sep (q :: rest2) := by
        simp [List.intercalate, List.intersperse]
      rw [hexp] at h
      simp only [List.mem_append] at h
      rcases h with (h | h) | h
      · exact Or.inr ⟨p, by simp, h⟩
      · exact Or.inl h
      · rcases ih h with h2 | ⟨p2, hp2, hc2⟩
        · exact Or.inl h2
        · exact Or.inr ⟨p2, by simp [hp2], hc2⟩

/-- Characters of a string drawn from an all-safe string list are
safe. -/
theorem string_list_safe {l : List String} {s : String}
    (hall : l.all (fun t => t.data.all safeChar) = true) (hm : s ∈ l) :
    ∀ ch ∈ s.data, safeChar ch = true := by
  intro ch hch
  exact List.all_eq_true.mp (List.all_eq_true.mp hall s hm) ch hch

/-- The (dot-prefixed, lower-cased) extension of a filename accepted
by `allowed_file` consists of safe characters. -/
theorem splitExt_safe_of_allowed (origName : List Char) (fileType : String)
    (h : allowedFile origName (some fileType) = true) :
    ∀ ch ∈ (splitExt origName).2, safeChar ch = true := by
  intro ch hch
  unfold allowedFile at h
  unfold splitExt at hch
  cases hr : rsplitDot origName with
  | none =>
    rw [hr] at h
    simp at h
  | some pr =>
    obtain ⟨pre, extRaw⟩ := pr
    rw [hr] at h hch
    have hsafe : ∀ ch2 ∈ (String.mk (toLowerChars extRaw)).data, safeChar ch2 = true := by
      split_ifs at h with hd
      · exact string_list_safe (l := DRAWING_EXTENSIONS) (by decide) (by simpa using h)
      · exact string_list_safe (l := ALLOWED_EXTENSIONS) (by decide) (by simpa using h)
    rcases List.mem_cons.mp hch with rfl | hch2
    · decide
    · exact hsafe ch hch2

/-- Every character of every assembled name part is safe (given a
digits-only date string). -/
theorem generateParts_safe (c : Contract) (fileType version author origName todayStr : String)
    (hdate : ∀ ch ∈ todayStr.data, ch.isDigit = true) :
    ∀ p ∈ generateParts c fileType version author origName todayStr,
      ∀ ch ∈ p, safeChar ch = true := by
  have horelse : ∀ (s dflt : List Char), (∀ ch ∈ s, safeChar ch = true) →
      dflt.all safeChar = true → ∀ ch ∈ orElse s dflt, safeChar ch = true := by
    intro s dflt hs hd ch hch
    unfold orElse at hch
    split_ifs at hch
    · exact List.all_eq_true.mp hd ch hch
    · exact hs ch hch
  intro p hp
  simp only [generateParts, List.mem_cons, List.not_mem_nil, or_false] at hp
  rcases hp with rfl | rfl | rfl | rfl | rfl | rfl | rfl | rfl | rfl
  · exact horelse _ _ sanitizePart_safe (by decide)
  · exact horelse _ _ sanitizePart_safe (by decide)
  · exact horelse _ _ sanitizePart_safe (by decide)
  · exact horelse _ _ sanitizePart_safe (by decide)
  · exact fun ch hch => safeChar_of_isDigit ch (hdate ch hch)
  · exact sanitizePart_safe
  · exact sanitizePart_safe
  · exact sanitizePart_safe
  · exact sanitizePart_safe

/-- C8: for every valid input — the original name passes
`allowed_file` for the chosen category and the upload-date string is
the usual all-digits `YYYYMMDD` — the generated stored name is at most
180 characters plus the extension, contains no path-unsafe character
and no space, substitutes the fixed placeholder token for each empty
field, and is a pure function of its inputs (same inputs and date give
the same name). -/
theorem generateFileName_properties
    (c : Contract) (fileType version author origName todayStr : String)
    (hvalid : allowedFile origName.data (some fileType) = true)
    (hdate : ∀ ch ∈ todayStr.data, ch.isDigit = true) :
    ((generateFileName c fileType version author origName todayStr).length ≤
      180 + (splitExt origName.data).2.length) ∧
    (∀ ch ∈ generateFileName c fileType version author origName todayStr,
      safeChar ch = true) ∧
    ((c.companyName.getD "") = "" →
      (generateParts c fileType version author origName todayStr).get? 0 =
        some "NoCompany".data) ∧
    (c.projectCode = "" →
      (generateParts c fileType version author origName todayStr).get? 1 =
        some "NoProject".data) ∧
    (c.contractNumber = "" →
      (generateParts c fileType version author origName todayStr).get? 2 =
        some "NoContractNo".data) ∧
    (c.name = "" →
      (generateParts c fileType version author origName todayStr).get? 3 =
        some "NoName".data) ∧
    (version = "" →
      (generateParts c fileType version author origName todayStr).get? 7 =
        some "V1".data) ∧
    (author = "" →
      (generateParts c fileType version author origName todayStr).get? 8 =
        some "unknown".data) ∧
    (∀ d : String, d = todayStr →
      generateFileName c fileType version author origName d =
        generateFileName c fileType version author origName todayStr) := by
  refine ⟨?_, ?_, ?_, ?_, ?_, ?_, ?_, ?_, ?_⟩
  · simp only [generateFileName]
    rw [List.length_append]
    have hteq : ∀ b : List Char, (if b.length > 180 then b.take 180 else b).length ≤ 180 := by
      intro b
      by_cases hb : b.length > 180
      · simp [hb]
      · simp [hb]
        omega
    have := hteq (List.intercalate ['_']
      (generateParts c fileType version author origName todayStr))
    omega
  · intro ch hch
    simp only [generateFileName] at hch
    rcases List.mem_append.mp hch with hbase | hext
    · have hbase2 : ch ∈ List.intercalate ['_']
          (generateParts c fileType version author origName todayStr) := by
        by_cases hb : (List.intercalate ['_']
            (generateParts c fileType version author origName todayStr)).length > 180
        · exact (List.take_sublist 180 _).subset (by rwa [if_pos hb] at hbase)
        · rwa [if_neg hb] at hbase
      rcases mem_of_mem_intercalate hbase2 with hsep | ⟨p, hp, hcp⟩
      · simp only [List.mem_cons, List.not_mem_nil, or_false] at hsep
        subst hsep
        decide
      · exact generateParts_safe c fileType version author origName todayStr hdate p hp ch hcp
    · exact splitExt_safe_of_allowed origName.data fileType hvalid ch hext
  · intro h
    simp [generateParts, h, orElse, sanitizePart]
  · intro h
    simp [generateParts, h, orElse, sanitizePart]
  · intro h
    simp [generateParts, h, orElse, sanitizePart]
  · intro h
    simp [generateParts, h, orElse, sanitizePart]
  · intro h
    simp [generateParts, h, orElse, sanitizePart]
    decide
  · intro h
    simp [generateParts, h, orElse, sanitizePart]
    decide
  · intro d hd
    rw [hd]

/-- C8 witness: the theorem at a concrete valid upload — `design.docx`
of category `tech`, empty version and a contract without a company, on
the date 2025-10-12. -/
theorem generateFileName_properties_witness :
    (allowedFile "design.docx".data (some "tech") = true ∧
     (∀ ch ∈ "20251012".data, ch.isDigit = true)) ∧
    (((generateFileName c8Contract "tech" "" "bob" "design.docx" "20251012").length ≤
      180 + (splitExt "design.docx".data).2.length) ∧
    (∀ ch ∈ generateFileName c8Contract "tech" "" "bob" "design.docx" "20251012",
      safeChar ch = true) ∧
    ((c8Contract.companyName.getD "") = "" →
      (generateParts c8Contract "tech" "" "bob" "design.docx" "20251012").get? 0 =
        some "NoCompany".data) ∧
    (c8Contract.projectCode = "" →
      (generateParts c8Contract "tech" "" "bob" "design.docx" "20251012").get? 1 =
        some "NoProject".data) ∧
    (c8Contract.contractNumber = "" →
      (generateParts c8Contract "tech" "" "bob" "design.docx" "20251012").get? 2 =
        some "NoContractNo".data) ∧
    (c8Contract.name = "" →
      (generateParts c8Contract "tech" "" "bob" "design.docx" "20251012").get? 3 =
        some "NoName".data) ∧
    (("" : String) = "" →
      (generateParts c8Contract "tech" "" "bob" "design.docx" "20251012").get? 7 =
        some "V1".data) ∧
    (("bob" : String) = "" →
      (generateParts c8Contract "tech" "" "bob" "design.docx" "20251012").get? 8 =
        some "unknown".data) ∧
    (∀ d : String, d = "20251012" →
      generateFileName c8Contract "tech" "" "bob" "design.docx" d =
        generateFileName c8Contract "tech" "" "bob" "design.docx" "20251012")) :=
  ⟨⟨by decide, by decide⟩,
   generateFileName_properties c8Contract "tech" "" "bob" "design.docx" "20251012"
     (by decide) (by decide)⟩

end Fszn
